import Mathlib

/-!
Verification of the Product Inventory API (src/main.py): an in-memory CRUD
service over product records.  The mutable module state (the dict `fake_db`
and the integer `product_counter`) is embedded as the structure `St`, with
the dict represented as an insertion-ordered association list (Python dicts
preserve insertion order; keys are never re-inserted because ids are never
reused).  Each endpoint handler becomes a pure function from the state to a
result paired with the successor state; `datetime.now()` becomes an explicit
`now` argument; the float `price` is embedded as `Rat` (only the exact
comparison `price > 0` matters).  Pydantic field validation, which runs
before the handler body, is embedded as an explicit validity check guarding
`create_product`.
-/

namespace ProductApi

/-- Error taxonomy of the service: pydantic validation failures (HTTP 422)
and missing-id lookups (HTTP 404). -/
inductive Err where
  | invalidInput
  | notFound
deriving DecidableEq, Repr

/-- Request body for creating a product: the fields of `ProductCreate`
(inherited from `ProductBase` in src/main.py lines 35-46).  `description`
defaults to `none` and `in_stock` to `true`; defaults are applied by the
parser (see `parseProductCreate`). -/
structure ProductCreate where
  name : String
  description : Option String
  price : Rat
  in_stock : Bool
deriving DecidableEq, Repr

/-- Full product model (src/main.py lines 48-51): the request fields plus the
system-generated `id` and `created_at`. -/
structure Product where
  id : Nat
  name : String
  description : Option String
  price : Rat
  in_stock : Bool
  created_at : Nat
deriving DecidableEq, Repr

/-- The module-level mutable state of src/main.py lines 68-70: the dict
`fake_db` (insertion-ordered, keyed by id) and the counter
`product_counter`. -/
structure St where
  fake_db : List (Nat × Product)
  product_counter : Nat
deriving DecidableEq, Repr

/-- Initial state: `fake_db = {}`, `product_counter = 1`. -/
def initSt : St := ⟨[], 1⟩

/-- Pydantic field constraints on `ProductBase` (src/main.py lines 35-42):
`name` has `min_length=1, max_length=100`, `price` has `gt=0`.  `description`
and `in_stock` carry no constraints. -/
def validCreate (product : ProductCreate) : Prop :=
  1 ≤ product.name.length ∧ product.name.length ≤ 100 ∧ 0 < product.price

instance : DecidablePred validCreate := fun product => by
  unfold validCreate
  infer_instance

/-- Python slice `xs[start : stop]` for non-negative bounds: the elements at
indices `start ≤ i < stop`. -/
def pySlice (xs : List α) (start stop : Nat) : List α :=
  (xs.take stop).drop start

/-- Handler of `POST /products/` (src/main.py lines 108-139).  Pydantic
validates the body before the handler runs; on failure the handler body never
executes, embedded as the `else` branch returning the unchanged state.  On
success the handler builds the `Product` from the counter, the current time
and the request fields, stores it under the counter key (a fresh key, hence
appended in insertion order) and increments the counter. -/
def create_product (product : ProductCreate) (now : Nat) (s : St) :
    Except Err Product × St :=
  if validCreate product then
    let db_product : Product :=
      { id := s.product_counter
        name := product.name
        description := product.description
        price := product.price
        in_stock := product.in_stock
        created_at := now }
    (.ok db_product,
      { fake_db := s.fake_db ++ [(s.product_counter, db_product)]
        product_counter := s.product_counter + 1 })
  else
    (.error .invalidInput, s)

/-- Handler of `GET /products/{product_id}` (src/main.py lines 99-106):
404 when the id is not a key of `fake_db`, otherwise the stored product.
The path constraint `gt=0` is enforced by the boundary before the handler;
claims about this handler therefore hypothesise `0 < product_id`. -/
def read_product (product_id : Nat) (s : St) : Except Err Product × St :=
  match s.fake_db.lookup product_id with
  | none => (.error .notFound, s)
  | some product => (.ok product, s)

/-- Handler of `GET /products/` (src/main.py lines 83-97): takes all stored
values, filters by `in_stock` equality when the query parameter is present,
then returns the Python slice `[skip : skip + limit]`. -/
def read_products (skip limit : Nat) (in_stock : Option Bool) (s : St) :
    List Product :=
  let filtered_items := s.fake_db.map Prod.snd
  let filtered_items :=
    match in_stock with
    | none => filtered_items
    | some b => filtered_items.filter (fun item => item.in_stock == b)
  pySlice filtered_items skip (skip + limit)

/-- Handler of `DELETE /products/{product_id}` (src/main.py lines 141-149):
404 when the id is absent, otherwise `del fake_db[product_id]` (removing the
unique entry with that key) and a confirmation message. -/
def delete_product (product_id : Nat) (s : St) : Except Err String × St :=
  match s.fake_db.lookup product_id with
  | none => (.error .notFound, s)
  | some _ =>
    ("Product " ++ toString product_id ++ " deleted successfully" |> .ok,
      { s with fake_db := s.fake_db.eraseP (fun kv => kv.1 == product_id) })

/-- One API request, for reasoning about sequences of operations. -/
inductive Op where
  | create (input : ProductCreate) (now : Nat)
  | get (product_id : Nat)
  | listing (skip limit : Nat) (in_stock : Option Bool)
  | delete (product_id : Nat)
deriving Repr

/-- State transition of a single request (the result is discarded). -/
def step (s : St) : Op → St
  | .create input now => (create_product input now s).2
  | .get product_id => (read_product product_id s).2
  | .listing _ _ _ => s
  | .delete product_id => (delete_product product_id s).2

/-- State after a sequence of requests. -/
def run (s : St) (ops : List Op) : St := ops.foldl step s

/-- Ids returned by the successful creates in a sequence of requests, in
order of occurrence. -/
def createdIds (s : St) : List Op → List Nat
  | [] => []
  | .create input now :: rest =>
    match create_product input now s with
    | (.ok product, s') => product.id :: createdIds s' rest
    | (.error _, s') => createdIds s' rest
  | op :: rest => createdIds (step s op) rest

/-- Store invariant: the counter is at least 1, keys are strictly increasing
in insertion order (hence unique), and every entry stores its own key as the
product's id, with `1 ≤ key < counter`. -/
def Inv (s : St) : Prop :=
  1 ≤ s.product_counter ∧
  (s.fake_db.map Prod.fst).Sorted (· < ·) ∧
  ∀ kv ∈ s.fake_db, 1 ≤ kv.1 ∧ kv.1 < s.product_counter ∧ kv.2.id = kv.1

instance : DecidablePred Inv := fun s => by
  unfold Inv
  infer_instance

/-- Stored values after the optional stock filter, before pagination: the
sequence whose length the spec calls the "filtered count". -/
def filteredItems (in_stock : Option Bool) (s : St) : List Product :=
  match in_stock with
  | none => s.fake_db.map Prod.snd
  | some b => (s.fake_db.map Prod.snd).filter (fun item => item.in_stock == b)

/-- Follows the spec's words for `list` (section 4.2), for comparison with
`read_products`: filter by `in_stock` equality when the filter is present,
then return the sub-sequence starting at index `skip` with at most `limit`
items. -/
def listSpec (skip limit : Nat) (in_stock : Option Bool) (s : St) :
    List Product :=
  ((filteredItems in_stock s).drop skip).take limit

/-- JSON-like values appearing in a request body. -/
inductive Val where
  | vStr (text : String)
  | vNum (q : Rat)
  | vBool (b : Bool)
  | vNull
deriving DecidableEq, Repr

/-- Field lookup in a request body (first occurrence of the key). -/
def getField (body : List (String × Val)) (key : String) : Option Val :=
  body.lookup key

/-- Parsing of the create request body into `ProductCreate`, modelling
pydantic's default behaviour on the model of src/main.py lines 44-46: only
the declared fields `name`, `description`, `price` and `in_stock` are read,
unknown keys are silently ignored (the default `extra` policy), missing
optional fields take their declared defaults (`description = none`,
`in_stock = true`), and the field constraints of `ProductBase` are
checked. -/
def parseProductCreate (body : List (String × Val)) : Except Err ProductCreate :=
  match getField body "name", getField body "price" with
  | some (.vStr n), some (.vNum q) =>
    let d : Option String :=
      match getField body "description" with
      | some (.vStr text) => some text
      | _ => none
    let stock : Bool :=
      match getField body "in_stock" with
      | some (.vBool b) => b
      | _ => true
    if 1 ≤ n.length ∧ n.length ≤ 100 ∧ 0 < q then
      .ok { name := n, description := d, price := q, in_stock := stock }
    else
      .error .invalidInput
  | _, _ => .error .invalidInput

/-- Example request body used by concrete witnesses. -/
def exInput : ProductCreate :=
  { name := "x", description := none, price := 10, in_stock := true }

/-- Product produced by creating `exInput` at time 5 in the initial state. -/
def exProd : Product :=
  { id := 1, name := "x", description := none, price := 10, in_stock := true
    created_at := 5 }

/-- Store holding exactly `exProd`, as left by that create. -/
def exSt1 : St := { fake_db := [(1, exProd)], product_counter := 2 }

/-- Further example products for witnesses over a three-element store. -/
def exProd2 : Product :=
  { id := 2, name := "y", description := some "d", price := 5 / 2
    in_stock := false, created_at := 6 }

/-- Third example product. -/
def exProd3 : Product :=
  { id := 3, name := "z", description := none, price := 3, in_stock := true
    created_at := 7 }

/-- Store holding the three example products in creation order. -/
def exSt3 : St :=
  { fake_db := [(1, exProd), (2, exProd2), (3, exProd3)], product_counter := 4 }

/-- Unfolding of a successful create: the returned product is built from the
counter, the timestamp and the request fields; the new state appends it under
the counter key and increments the counter. -/
theorem create_product_eq_ok {input : ProductCreate} {now : Nat} {s : St}
    {product : Product} {s' : St}
    (h : create_product input now s = (.ok product, s')) :
    product = { id := s.product_counter, name := input.name
                description := input.description, price := input.price
                in_stock := input.in_stock, created_at := now } ∧
    s' = { fake_db := s.fake_db ++ [(s.product_counter, product)]
           product_counter := s.product_counter + 1 } := by
  unfold create_product at h
  split at h
  · simp only [Prod.mk.injEq, Except.ok.injEq] at h
    obtain ⟨rfl, rfl⟩ := h
    exact ⟨rfl, rfl⟩
  · simp at h

/-- Unfolding of a failed create: the input is invalid and the state is
returned unchanged. -/
theorem create_product_eq_error {input : ProductCreate} {now : Nat} {s : St}
    {e : Err} {s' : St}
    (h : create_product input now s = (.error e, s')) :
    ¬ validCreate input ∧ e = .invalidInput ∧ s' = s := by
  unfold create_product at h
  split at h
  · simp at h
  · simp only [Prod.mk.injEq, Except.error.injEq] at h
    obtain ⟨rfl, rfl⟩ := h
    exact ⟨by assumption, rfl, rfl⟩

/-- Reading a product never changes the state. -/
theorem read_product_snd (product_id : Nat) (s : St) :
    (read_product product_id s).2 = s := by
  unfold read_product
  rcases s.fake_db.lookup product_id with _ | product <;> rfl

/-- Deleting never changes the counter. -/
theorem delete_product_counter (product_id : Nat) (s : St) :
    (delete_product product_id s).2.product_counter = s.product_counter := by
  unfold delete_product
  rcases s.fake_db.lookup product_id with _ | product <;> rfl

/-- Lookup skips a suffix none of whose keys is the looked-up key. -/
theorem lookup_append_left_of_ne {α β : Type} [BEq α] [LawfulBEq α]
    {l₁ l₂ : List (α × β)} {k : α} (h : ∀ kv ∈ l₂, k ≠ kv.1) :
    (l₁ ++ l₂).lookup k = l₁.lookup k := by
  have h2 : l₂.lookup k = none :=
    List.lookup_eq_none_iff.mpr (fun p hp => by simpa using h p hp)
  rw [List.lookup_append, h2, Option.or_none]

/-- Lookup skips a prefix none of whose keys is the looked-up key. -/
theorem lookup_append_right_of_ne {α β : Type} [BEq α] [LawfulBEq α]
    {l₁ l₂ : List (α × β)} {k : α} (h : ∀ kv ∈ l₁, k ≠ kv.1) :
    (l₁ ++ l₂).lookup k = l₂.lookup k := by
  have h1 : l₁.lookup k = none :=
    List.lookup_eq_none_iff.mpr (fun p hp => by simpa using h p hp)
  rw [List.lookup_append, h1, Option.none_or]

/-- When keys are unique, removing the first entry with a given key is the
same as removing every entry with that key. -/
theorem eraseP_key_eq_filter {β : Type} {l : List (Nat × β)} {k : Nat}
    (h : (l.map Prod.fst).Nodup) :
    l.eraseP (fun kv => kv.1 == k) = l.filter (fun kv => kv.1 != k) := by
  induction l with
  | nil => rfl
  | cons kv rest ih =>
    simp only [List.map_cons, List.nodup_cons] at h
    by_cases hk : kv.1 = k
    · rw [List.eraseP_cons_of_pos (by simp [hk]),
        List.filter_cons_of_neg (by simp [hk]),
        List.filter_eq_self.mpr]
      intro a ha
      have : a.1 ∈ rest.map Prod.fst := List.mem_map_of_mem Prod.fst ha
      simp only [bne_iff_ne, ne_eq]
      intro hak
      exact h.1 (by rwa [hk, ← hak])
    · rw [List.eraseP_cons_of_neg (by simp [hk]),
        List.filter_cons_of_pos (by simp [hk]), ih h.2]

/-- Creating preserves the store invariant. -/
theorem inv_create (input : ProductCreate) (now : Nat) {s : St} (h : Inv s) :
    Inv (create_product input now s).2 := by
  obtain ⟨h1, h2, h3⟩ := h
  unfold create_product
  split
  · refine ⟨Nat.le_succ_of_le h1, ?_, ?_⟩
    · rw [List.map_append]
      refine List.pairwise_append.mpr ⟨h2, List.pairwise_singleton _ _, ?_⟩
      intro a ha b hb
      simp only [List.map_cons, List.map_nil, List.mem_singleton] at hb
      subst hb
      obtain ⟨kv, hkv, rfl⟩ := List.mem_map.mp ha
      exact (h3 kv hkv).2.1
    · intro kv hkv
      rcases List.mem_append.mp hkv with hkv | hkv
      · obtain ⟨a, b, c⟩ := h3 kv hkv
        exact ⟨a, Nat.lt_succ_of_lt b, c⟩
      · simp only [List.mem_singleton] at hkv
        subst hkv
        exact ⟨h1, Nat.lt_succ_self _, rfl⟩
  · exact ⟨h1, h2, h3⟩

/-- Deleting preserves the store invariant. -/
theorem inv_delete (product_id : Nat) {s : St} (h : Inv s) :
    Inv (delete_product product_id s).2 := by
  obtain ⟨h1, h2, h3⟩ := h
  unfold delete_product
  rcases s.fake_db.lookup product_id with _ | product
  · exact ⟨h1, h2, h3⟩
  · refine ⟨h1, ?_, ?_⟩
    · exact h2.sublist ((List.eraseP_sublist _).map Prod.fst)
    · intro kv hkv
      exact h3 kv (List.eraseP_subset _ hkv)

/-- Every single request preserves the store invariant. -/
theorem inv_step {s : St} (op : Op) (h : Inv s) : Inv (step s op) := by
  cases op with
  | create input now => exact inv_create input now h
  | get product_id => rw [step, read_product_snd]; exact h
  | listing skip limit f => exact h
  | delete product_id => exact inv_delete product_id h

/-- The invariant holds after any request sequence from an invariant state. -/
theorem inv_run {s : St} (ops : List Op) (h : Inv s) : Inv (run s ops) := by
  induction ops generalizing s with
  | nil => exact h
  | cons op rest ih => exact ih (inv_step op h)

/-- The initial state satisfies the store invariant. -/
theorem inv_initSt : Inv initSt := by
  refine ⟨Nat.le_refl 1, ?_, ?_⟩ <;> simp [initSt]

/-- Ids handed out by the successful creates of any request sequence are the
consecutive integers starting at the state's counter. -/
theorem createdIds_eq_range' (ops : List Op) :
    ∀ s : St,
      createdIds s ops = List.range' s.product_counter (createdIds s ops).length := by
  induction ops with
  | nil => intro s; rfl
  | cons op rest ih =>
    intro s
    cases op with
    | create input now =>
      rcases h : create_product input now s with ⟨res, s'⟩
      cases res with
      | ok product =>
        obtain ⟨hp, hs⟩ := create_product_eq_ok h
        have hpid : product.id = s.product_counter := by rw [hp]
        have hsc : s'.product_counter = s.product_counter + 1 := by rw [hs]
        have hlen := ih s'
        simp only [createdIds, h, List.length_cons]
        rw [List.range'_succ]
        rw [hpid, hlen, hsc, List.length_range']
      | error e =>
        obtain ⟨_, _, hs⟩ := create_product_eq_error h
        subst hs
        simp only [createdIds, h]
        exact ih s'
    | get product_id =>
      have hstep : step s (.get product_id) = s := by
        rw [step, read_product_snd]
      simp only [createdIds, hstep]
      exact ih s
    | listing skip limit f =>
      simp only [createdIds, step]
      exact ih s
    | delete product_id =>
      have hc : (step s (.delete product_id)).product_counter
          = s.product_counter := by
        rw [step, delete_product_counter]
      simp only [createdIds]
      rw [ih (step s (.delete product_id)), hc, List.length_range']

/-- C1: over any request sequence from the initial state, the ids returned by
the successful creates are exactly the consecutive integers 1, 2, 3, …: ids
start at 1, advance by one per successful create, each is strictly greater
than every previously assigned id, and none is ever assigned twice, even
after deletes. -/
theorem created_ids_consecutive_from_one (ops : List Op) :
    createdIds initSt ops = List.range' 1 (createdIds initSt ops).length :=
  createdIds_eq_range' ops initSt

/-- C9: after any request sequence from the initial state, the counter is at
least 1, every stored key k satisfies 1 ≤ k < counter, the product stored
under k has id k, and the stored keys are pairwise distinct. -/
theorem store_invariant_all_runs (ops : List Op) :
    1 ≤ (run initSt ops).product_counter ∧
    (∀ kv ∈ (run initSt ops).fake_db,
      1 ≤ kv.1 ∧ kv.1 < (run initSt ops).product_counter ∧ kv.2.id = kv.1) ∧
    ((run initSt ops).fake_db.map Prod.fst).Nodup := by
  obtain ⟨h1, h2, h3⟩ := inv_run ops inv_initSt
  exact ⟨h1, h3, h2.nodup⟩

/-- C4: a create whose name is empty or longer than 100 characters, or whose
price is not strictly positive, fails with a validation error and returns the
state unchanged: no store mutation and no id consumption happen. -/
theorem create_rejects_invalid_without_mutation (input : ProductCreate)
    (now : Nat) (s : St)
    (h : input.name.length = 0 ∨ 100 < input.name.length ∨ input.price ≤ 0) :
    create_product input now s = (.error .invalidInput, s) := by
  have hnv : ¬ validCreate input := by
    rintro ⟨a, b, c⟩
    rcases h with h | h | h
    · omega
    · omega
    · exact absurd c (not_lt.mpr h)
  unfold create_product
  rw [if_neg hnv]

/-- Closed witness for C4: creating with an empty name fails and leaves the
initial state untouched. -/
theorem create_rejects_invalid_witness :
    create_product { name := "", description := none, price := 10
                     in_stock := true } 0 initSt
      = (.error .invalidInput, initSt) :=
  create_rejects_invalid_without_mutation _ 0 initSt (Or.inl (by decide))

/-- C5: for any positive id, a get on an absent id returns `notFound` with
the state unchanged, and a get on a present id returns the stored product
with the state unchanged. -/
theorem read_product_found_or_not (product_id : Nat) (s : St)
    (_hpos : 0 < product_id) :
    (s.fake_db.lookup product_id = none →
      read_product product_id s = (.error .notFound, s)) ∧
    (∀ product, s.fake_db.lookup product_id = some product →
      read_product product_id s = (.ok product, s)) := by
  constructor
  · intro h
    simp [read_product, h]
  · intro product h
    simp [read_product, h]

/-- Closed witness for C5: id 1 is stored in `exSt1` and is returned; id 2 is
absent and yields `notFound`, unchanged state in both cases. -/
theorem read_product_found_or_not_witness :
    read_product 1 exSt1 = (.ok exProd, exSt1) ∧
    read_product 2 exSt1 = (.error .notFound, exSt1) :=
  ⟨(read_product_found_or_not 1 exSt1 (by decide)).2 exProd rfl,
   (read_product_found_or_not 2 exSt1 (by decide)).1 rfl⟩

/-- C8: a successful create performs exactly one store mutation and consumes
exactly one id: the new state's store is the old one with exactly one entry
appended (the new product under the new id), every previously stored entry is
still present unchanged, and the counter advances by exactly one. -/
theorem create_frame {input : ProductCreate} {now : Nat} {s : St}
    {product : Product} {s' : St}
    (h : create_product input now s = (.ok product, s')) :
    s'.fake_db = s.fake_db ++ [(s.product_counter, product)] ∧
    s'.fake_db.length = s.fake_db.length + 1 ∧
    product.id = s.product_counter ∧
    product.created_at = now ∧
    s'.product_counter = s.product_counter + 1 ∧
    ∀ kv ∈ s.fake_db, kv ∈ s'.fake_db := by
  obtain ⟨hp, hs⟩ := create_product_eq_ok h
  subst hs
  refine ⟨rfl, by simp, by rw [hp], by rw [hp], rfl, ?_⟩
  intro kv hkv
  exact List.mem_append_left _ hkv

/-- Closed witness for C8: creating `exInput` in the empty initial state
appends exactly one entry and advances the counter from 1 to 2. -/
theorem create_frame_witness :
    exSt1.fake_db = initSt.fake_db ++ [(initSt.product_counter, exProd)] ∧
    exSt1.fake_db.length = initSt.fake_db.length + 1 ∧
    exProd.id = initSt.product_counter ∧
    exProd.created_at = 5 ∧
    exSt1.product_counter = initSt.product_counter + 1 ∧
    ∀ kv ∈ initSt.fake_db, kv ∈ exSt1.fake_db :=
  @create_frame exInput 5 initSt exProd exSt1 (by rfl)

/-- C3: creating a product and then getting it by the returned id, with no
intervening mutation, returns a product equal in all fields to the one
returned by the create (and leaves the state unchanged). -/
theorem create_then_get (input : ProductCreate) (now : Nat) {s : St}
    {product : Product} {s' : St} (hInv : Inv s)
    (h : create_product input now s = (.ok product, s')) :
    read_product product.id s' = (.ok product, s') := by
  obtain ⟨hp, hs⟩ := create_product_eq_ok h
  have hpid : product.id = s.product_counter := by rw [hp]
  have hne : ∀ kv ∈ s.fake_db, s.product_counter ≠ kv.1 :=
    fun kv hkv => Nat.ne_of_gt ((hInv.2.2 kv hkv).2.1)
  have hlk : s'.fake_db.lookup product.id = some product := by
    simp only [hs, hpid]
    rw [lookup_append_right_of_ne hne]
    exact List.lookup_cons_self
  simp [read_product, hlk]

/-- Closed witness for C3: the product created from `exInput` at time 5 in
the initial state is returned verbatim by a subsequent get. -/
theorem create_then_get_witness :
    read_product exProd.id exSt1 = (.ok exProd, exSt1) :=
  @create_then_get exInput 5 initSt exProd exSt1 (by decide) (by rfl)

/-- C2: for skip ≥ 0 and limit in [1,100], listing filters by `in_stock`
equality first (when the filter is present), keeping order, then returns the
sub-sequence of the filtered sequence starting at index `skip` with at most
`limit` items; when `skip` is at least the filtered count the result is empty
and no error is signaled. -/
theorem read_products_paginates_after_filter (skip limit : Nat)
    (in_stock : Option Bool) (s : St)
    (_hlim1 : 1 ≤ limit) (_hlim2 : limit ≤ 100) :
    read_products skip limit in_stock s = listSpec skip limit in_stock s ∧
    ((filteredItems in_stock s).length ≤ skip →
      read_products skip limit in_stock s = []) := by
  have hmain : read_products skip limit in_stock s
      = ((filteredItems in_stock s).drop skip).take limit := by
    cases in_stock <;>
      · simp only [read_products, filteredItems, pySlice]
        exact (List.take_drop skip limit _).symm
  refine ⟨hmain.trans rfl, ?_⟩
  intro hle
  rw [hmain, List.drop_eq_nil_of_le hle, List.take_nil]

/-- Closed witness for C2: in the three-product store, skipping 10 exceeds
the filtered count and the listing is empty, with no error. -/
theorem read_products_paginates_witness :
    read_products 10 2 none exSt3 = listSpec 10 2 none exSt3 ∧
    ((filteredItems none exSt3).length ≤ 10 →
      read_products 10 2 none exSt3 = []) :=
  read_products_paginates_after_filter 10 2 none exSt3 (by decide) (by decide)

/-- C6: for any positive id, deleting an absent id fails with `notFound` and
returns the state unchanged (same store, same size); deleting a present id
succeeds with a confirmation message, removes exactly the entry with that key
(all other entries survive in order), keeps the counter, and a subsequent get
of that id fails with `notFound`. -/
theorem delete_semantics (product_id : Nat) (s : St) (_hpos : 0 < product_id) :
    (s.fake_db.lookup product_id = none →
      delete_product product_id s = (.error .notFound, s)) ∧
    (Inv s → ∀ product, s.fake_db.lookup product_id = some product →
      (delete_product product_id s).1
          = .ok ("Product " ++ toString product_id ++ " deleted successfully") ∧
      (delete_product product_id s).2.fake_db
          = s.fake_db.filter (fun kv => kv.1 != product_id) ∧
      (read_product product_id (delete_product product_id s).2).1
          = .error .notFound ∧
      (delete_product product_id s).2.product_counter = s.product_counter) := by
  constructor
  · intro h
    simp [delete_product, h]
  · intro hInv product h
    have hnd : (s.fake_db.map Prod.fst).Nodup := hInv.2.1.nodup
    simp only [delete_product, h]
    refine ⟨trivial, eraseP_key_eq_filter hnd, ?_, trivial⟩
    have hnone :
        (s.fake_db.eraseP (fun kv => kv.1 == product_id)).lookup product_id
          = none := by
      rw [eraseP_key_eq_filter hnd]
      apply List.lookup_eq_none_iff.mpr
      intro p hp
      have hne := (List.mem_filter.mp hp).2
      simp only [bne_iff_ne] at hne ⊢
      exact hne.symm
    simp [read_product, hnone]

/-- Closed witness for C6: deleting absent id 2 from `exSt1` fails without
change; deleting present id 1 removes it, keeps the counter, and a get of id
1 afterwards fails. -/
theorem delete_semantics_witness :
    delete_product 2 exSt1 = (.error .notFound, exSt1) ∧
    (delete_product 1 exSt1).1
        = .ok ("Product " ++ toString 1 ++ " deleted successfully") ∧
    (delete_product 1 exSt1).2.fake_db
        = exSt1.fake_db.filter (fun kv => kv.1 != 1) ∧
    (read_product 1 (delete_product 1 exSt1).2).1 = .error .notFound ∧
    (delete_product 1 exSt1).2.product_counter = exSt1.product_counter := by
  have h1 := (delete_semantics 2 exSt1 (by decide)).1 rfl
  have h2 := (delete_semantics 1 exSt1 (by decide)).2 (by decide) exProd rfl
  exact ⟨h1, h2.1, h2.2.1, h2.2.2.1, h2.2.2.2⟩

/-- C7: for any request sequence and any skip/limit/filter window, the
listing is a sub-sequence of the stored products in store order, and the ids
of the listed products are strictly increasing — products appear in the same
relative order as they were created. -/
theorem read_products_insertion_order (ops : List Op) (skip limit : Nat)
    (in_stock : Option Bool) :
    List.Sublist (read_products skip limit in_stock (run initSt ops))
        ((run initSt ops).fake_db.map Prod.snd) ∧
    ((read_products skip limit in_stock (run initSt ops)).map
        Product.id).Sorted (· < ·) := by
  have hInv := inv_run ops inv_initSt
  have hsub : ∀ s : St,
      List.Sublist (read_products skip limit in_stock s)
        (s.fake_db.map Prod.snd) := by
    intro s
    cases in_stock with
    | none =>
      simp only [read_products, pySlice]
      exact (List.drop_sublist _ _).trans (List.take_sublist _ _)
    | some b =>
      simp only [read_products, pySlice]
      exact ((List.drop_sublist _ _).trans (List.take_sublist _ _)).trans
        (List.filter_sublist _)
  refine ⟨hsub _, ?_⟩
  have hmap : ((run initSt ops).fake_db.map Prod.snd).map Product.id
      = (run initSt ops).fake_db.map Prod.fst := by
    rw [List.map_map]
    exact List.map_congr_left (fun kv hkv => (hInv.2.2 kv hkv).2.2)
  have hs : List.Sublist
      ((read_products skip limit in_stock (run initSt ops)).map Product.id)
      ((run initSt ops).fake_db.map Prod.fst) := by
    rw [← hmap]
    exact (hsub _).map Product.id
  exact List.Pairwise.sublist hs hInv.2.1

/-- C10: unknown extra fields in the create request body — including a
client-supplied id or created_at — are silently ignored rather than rejected,
and the created product always carries the store-assigned counter id and the
store-assigned timestamp regardless of the client body. -/
theorem extra_fields_ignored (body extras : List (String × Val))
    (hextras : ∀ kv ∈ extras,
      kv.1 ∉ (["name", "description", "price", "in_stock"] : List String)) :
    parseProductCreate (body ++ extras) = parseProductCreate body ∧
    ∀ input now s product s', parseProductCreate body = .ok input →
      create_product input now s = (.ok product, s') →
      product.id = s.product_counter ∧ product.created_at = now := by
  have hget : ∀ key : String,
      key ∈ (["name", "description", "price", "in_stock"] : List String) →
      getField (body ++ extras) key = getField body key := by
    intro key hkey
    unfold getField
    apply lookup_append_left_of_ne
    intro kv hkv hcontra
    exact hextras kv hkv (hcontra ▸ hkey)
  refine ⟨?_, ?_⟩
  · simp only [parseProductCreate,
      hget "name" (by decide), hget "price" (by decide),
      hget "description" (by decide), hget "in_stock" (by decide)]
  · intro input now s product s' _hparse hcreate
    obtain ⟨hp, _⟩ := create_product_eq_ok hcreate
    exact ⟨by rw [hp], by rw [hp]⟩

/-- Closed witness for C10: a body carrying extra `id` and `created_at`
fields parses exactly as the same body without them, and the created product
gets the counter id 1 and the server timestamp 5, not the client values. -/
theorem extra_fields_ignored_witness :
    parseProductCreate
        ([("name", .vStr "x"), ("price", .vNum 10)]
          ++ [("id", .vNum 42), ("created_at", .vStr "2020-01-01")])
      = parseProductCreate [("name", .vStr "x"), ("price", .vNum 10)] ∧
    exProd.id = initSt.product_counter ∧ exProd.created_at = 5 := by
  have h := extra_fields_ignored
      [("name", .vStr "x"), ("price", .vNum 10)]
      [("id", .vNum 42), ("created_at", .vStr "2020-01-01")]
      (by decide)
  exact ⟨h.1, h.2 exInput 5 initSt exProd exSt1 (by rfl) (by rfl)⟩

end ProductApi
